import Mathlib

/-!
Verification of the hermes device-timer coordinator.

The Go sources are shallowly embedded: Go maps become association lists
over `String` keys (a missing key reads as the zero value of the type where the
source relies on that), `time.Duration` becomes `Int` (nanoseconds),
`time.Ticker` becomes a record of its period together with whether a tick
is pending on its channel, and the run-time panics the source can hit
(`Stop` on a nil ticker, `time.NewTicker` with a non-positive duration)
become an explicit `GoPanic` value carried by the step results.
-/

namespace Hermes

/-- The duration `time.Second` in nanoseconds. -/
def second : Int := 1000000000

/-- The duration `time.Minute` in nanoseconds. -/
def minute : Int := 60 * second

/-- Source constant `TimerSendInterval = "timerSendInterval"`. -/
def TimerSendInterval : String := "timerSendInterval"

/-- Source constant `TimerReceiveInterval = "timerRecvInterval"`. -/
def TimerReceiveInterval : String := "timerRecvInterval"

/-- Source constant `modelsDir = "./models"`. -/
def modelsDir : String := "./models"

/-- Source constant `hermesPrefix = "hermes"`, the string prepended to
handler topics by `GetHandlers`. -/
def hermesTopicRoot : String := "hermes"

/-- Source constant `hadesPrefix = "hades"`, the root of outbound topics. -/
def hadesTopicRoot : String := "hades"

/-- A `time.Ticker`: its period and whether a tick is currently pending on
its channel `C`. A ticker fresh from `time.NewTicker` has no pending tick. -/
structure Ticker where
  period : Int
  pending : Bool
deriving Repr, DecidableEq

/-- Go run-time panics reachable in `sendTimer`. -/
inductive GoPanic where
  /-- Raised when `Stop` is called on a nil ticker (missing map entry). -/
  | nilTickerStop
  /-- Raised when `time.NewTicker` is called with a duration `<= 0`. -/
  | nonPositiveInterval
deriving Repr, DecidableEq

/-- Association-list lookup for a Go `map[string]V`; `none` models the
absent key (whose read yields the zero value in Go). -/
def mapFind (k : String) : List (String × α) → Option α
  | [] => none
  | (k1, v) :: rest => if k1 = k then some v else mapFind k rest

/-- Association-list update for a Go `map[string]V` assignment `m[k] = v`. -/
def mapInsert (k : String) (v : α) : List (String × α) → List (String × α)
  | [] => [(k, v)]
  | (k1, v1) :: rest =>
      if k1 = k then (k, v) :: rest else (k1, v1) :: mapInsert k v rest

/-- The `Timer` struct sent over the `setTimer` channel. -/
structure Timer where
  duration : Int
  timerType : String
  mac : String
deriving Repr, DecidableEq

/-- A control message for the timer owner: a value on the `setTimer`
channel or a mac on the `resetTimer` channel. -/
inductive ControlMsg where
  | set (t : Timer)
  | reset (mac : String)
deriving Repr, DecidableEq

/-- The mutable state of the `hermes` struct that the claims concern:
the registry maps `currentSendInterval`, `sendTicker`, `canSend`, and the
scalar `initialModel`. -/
structure HermesState where
  initialModel : Bool
  currentSendInterval : List (String × Int)
  sendTicker : List (String × Ticker)
  canSend : List (String × Bool)
deriving Repr, DecidableEq

/-- The state after `Initialize()`: empty maps, `initialModel = true`. -/
def initState : HermesState :=
  { initialModel := true
    currentSendInterval := []
    sendTicker := []
    canSend := [] }

/-- Ticker life-cycle events, recording that `sendTimer` stopped or
created a ticker for a device. -/
inductive TickerEvent where
  | stopped (mac : String)
  | created (mac : String) (period : Int)
deriving Repr, DecidableEq

/-- Result of processing control messages: the resulting state, the ticker
life-cycle events in order, and the panic that killed the worker, if any.
State mutations made before a panic persist. -/
structure StepResult where
  state : HermesState
  events : List TickerEvent
  panicked : Option GoPanic
deriving Repr, DecidableEq

/-- One iteration of the `select` loop in `hermes.sendTimer`, handling a
single control message.

`setTimer` branch (`timerType == TimerSendInterval`): stop the existing
ticker if present, record `currentSendInterval[mac] = duration`, create a
fresh ticker (`time.NewTicker` panics when `duration <= 0`, after the
interval map was already written), set `canSend[mac] = false`.

`resetTimer` branch: set `canSend[mac] = false`, call
`sendTicker[mac].Stop()` — which panics when the entry is absent (nil
ticker) — then install `time.NewTicker(currentSendInterval[mac])`, which
panics when that interval is `<= 0`. -/
def sendTimerStep (s : HermesState) : ControlMsg → StepResult
  | ControlMsg.set t =>
      if t.timerType = TimerSendInterval then
        let stopEvs : List TickerEvent :=
          match mapFind t.mac s.sendTicker with
          | some _ => [TickerEvent.stopped t.mac]
          | none => []
        let s1 := { s with
          currentSendInterval := mapInsert t.mac t.duration s.currentSendInterval }
        if t.duration ≤ 0 then
          { state := s1, events := stopEvs,
            panicked := some GoPanic.nonPositiveInterval }
        else
          { state := { s1 with
              sendTicker := mapInsert t.mac ⟨t.duration, false⟩ s.sendTicker
              canSend := mapInsert t.mac false s.canSend }
            events := stopEvs ++ [TickerEvent.created t.mac t.duration]
            panicked := none }
      else
        { state := s, events := [], panicked := none }
  | ControlMsg.reset mac =>
      let s1 := { s with canSend := mapInsert mac false s.canSend }
      match mapFind mac s.sendTicker with
      | none =>
          { state := s1, events := [], panicked := some GoPanic.nilTickerStop }
      | some _ =>
          let d := (mapFind mac s.currentSendInterval).getD 0
          if d ≤ 0 then
            { state := s1, events := [TickerEvent.stopped mac],
              panicked := some GoPanic.nonPositiveInterval }
          else
            { state := { s1 with sendTicker := mapInsert mac ⟨d, false⟩ s.sendTicker }
              events := [TickerEvent.stopped mac, TickerEvent.created mac d]
              panicked := none }

/-- Processing a queue of control messages by `sendTimer`; a panic kills
the worker, so the remaining messages are never handled. -/
def sendTimerRun (s : HermesState) : List ControlMsg → StepResult
  | [] => { state := s, events := [], panicked := none }
  | m :: ms =>
      let r := sendTimerStep s m
      match r.panicked with
      | some p => { state := r.state, events := r.events, panicked := some p }
      | none =>
          let r2 := sendTimerRun r.state ms
          { state := r2.state, events := r.events ++ r2.events,
            panicked := r2.panicked }

/-- Splitting a character list on a separator; `split sep [] = [[]]`, in
accordance with the Go function strings.Split, which returns one (empty) segment for
the empty string. -/
def splitChar (sep : Char) : List Char → List (List Char)
  | [] => [[]]
  | c :: cs =>
      let r := splitChar sep cs
      if c = sep then [] :: r
      else
        match r with
        | [] => [[c]]
        | g :: gs => (c :: g) :: gs

/-- Whether a character is a hexadecimal digit. -/
def isHexDigit (c : Char) : Bool :=
  (Char.ofNat 48 ≤ c && c ≤ Char.ofNat 57) ||
  (Char.ofNat 97 ≤ c && c ≤ Char.ofNat 102) ||
  (Char.ofNat 65 ≤ c && c ≤ Char.ofNat 70)

/-- A MAC-address group: exactly two hexadecimal digits. -/
def isMacGroup (g : List Char) : Bool :=
  g.length = 2 && g.all isHexDigit

/-- Modelled from the spec: the MAC-address shape — six colon-separated
two-hex-digit groups (§4.4); the shape test behind the missing
`parseTopicMac` source. -/
def isMacShape (seg : List Char) : Bool :=
  let gs := splitChar (Char.ofNat 58) seg
  gs.length = 6 && gs.all isMacGroup

/-- The slash-separated segments of a topic string. -/
def topicSegments (topic : String) : List (List Char) :=
  splitChar (Char.ofNat 47) topic.data

/-- Modelled from the spec: `parseTopicMac` is absent from the provided
sources (only its tests and callers are). Per §4.4 it locates the
slash-separated segment of the topic matching the MAC-address shape and
returns it, and returns the empty string when no segment matches exactly. -/
def parseTopicMac (topic : String) : String :=
  match (topicSegments topic).find? isMacShape with
  | some seg => String.mk seg
  | none => ""

/-- Go method `hermes.GetCurrentSendInterval`: under the lock, return
`currentSendInterval[mac]`, or `time.Second` when that (zero-value) read
is 0. -/
def GetCurrentSendInterval (s : HermesState) (mac : String) : Int :=
  let v := (mapFind mac s.currentSendInterval).getD 0
  if v = 0 then second else v

/-- Go method `hermes.GetCanSend`: returns true when `len(canSend) == 0` or
`sendTicker[mac]` is nil; otherwise a non-blocking receive on the ticker
channel — a pending tick is drained and `canSend[mac]` set true, else
`canSend[mac]` is set false — and the just-written flag is returned.
The result pairs the returned Bool with the updated state. -/
def GetCanSend (s : HermesState) (mac : String) : Bool × HermesState :=
  if s.canSend.isEmpty then (true, s)
  else
    match mapFind mac s.sendTicker with
    | none => (true, s)
    | some tk =>
        if tk.pending then
          (true, { s with
            sendTicker := mapInsert mac { tk with pending := false } s.sendTicker
            canSend := mapInsert mac true s.canSend })
        else
          (false, { s with canSend := mapInsert mac false s.canSend })

/-- Go method `hermes.ResetCanSend`: sends `mac` on the `resetTimer` channel only
when `mac` is non-empty. The result is the list of control messages sent. -/
def ResetCanSend (mac : String) : List ControlMsg :=
  if mac ≠ "" then [ControlMsg.reset mac] else []

/-- A received message, as seen by `HandleReceiveModel`: its topic and its
raw payload bytes. -/
structure ModelMessage where
  topic : String
  payload : List Nat
deriving Repr, DecidableEq

/-- The JSON body `{"mac": string, "send_interval": int}` of an interval
update (`SendIntervalPayload`). -/
structure SendIntervalPayload where
  MAC : String
  SendInterval : Int
deriving Repr, DecidableEq

/-- A received message as seen by `HandleReceiveInterval`: its topic and
the result of `json.Unmarshal` on its payload — `none` when unmarshalling
fails, in which case the Go handler keeps the zero-valued payload and
continues after logging. -/
structure IntervalMessage where
  topic : String
  payload : Option SendIntervalPayload
deriving Repr, DecidableEq

/-- The outcome of a protocol handler: the updated scalar/registry state,
the `Timer` values sent on the `setTimer` channel (in order), and the
model files written as `(name, bytes)` pairs. -/
structure HandlerResult where
  state : HermesState
  sent : List Timer
  files : List (String × List Nat)
deriving Repr, DecidableEq

/-- The file name used by `hermes.saveModel`, from the Sprintf template
`"%s/model_%s.tflite"` applied to `modelsDir` and `mac`. -/
def modelFileName (mac : String) : String :=
  modelsDir ++ "/model_" ++ mac ++ ".tflite"

/-- Go method `hermes.HandleReceiveModel`: extract the mac via `parseTopicMac`,
save the payload as the model of the device, set `initialModel = false`, and
send `Timer{time.Second * 10, TimerSendInterval, mac}` on `setTimer` —
unconditionally, with no check that extraction succeeded. -/
def HandleReceiveModel (s : HermesState) (msg : ModelMessage) : HandlerResult :=
  let mac := parseTopicMac msg.topic
  { state := { s with initialModel := false }
    sent := [⟨10 * second, TimerSendInterval, mac⟩]
    files := [(modelFileName mac, msg.payload)] }

/-- Go method `hermes.HandleReceiveInterval`: extract the mac via `parseTopicMac`,
unmarshal the payload (keeping the zero value on failure), and if
`SendInterval == 0 || mac == ""` return after logging; otherwise send
`Timer{time.Minute * SendInterval, TimerSendInterval, mac}` on `setTimer`. -/
def HandleReceiveInterval (s : HermesState) (msg : IntervalMessage) : HandlerResult :=
  let mac := parseTopicMac msg.topic
  let payload := msg.payload.getD { MAC := "", SendInterval := 0 }
  if payload.SendInterval = 0 || mac = "" then
    { state := s, sent := [], files := [] }
  else
    { state := s
      sent := [⟨minute * payload.SendInterval, TimerSendInterval, mac⟩]
      files := [] }

/-- A `TopicHandler` entry: its topic and QoS (the function pointer is
irrelevant to the claims). -/
structure TopicHandler where
  Topic : String
  QoS : Nat
deriving Repr, DecidableEq

/-- The handler list installed by `Initialize()`. -/
def initHandlers : List TopicHandler :=
  [⟨"node/+/+/hades/model/receive", 1⟩,
   ⟨"node/+/+/hades/interval/receive", 1⟩]

/-- Go method `hermes.GetHandlers`: rewrites the topic of every stored
entry in place, joining the hermes root and the old topic with a slash,
and returns the (now mutated) stored list. -/
def GetHandlers (hs : List TopicHandler) : List TopicHandler :=
  hs.map fun e => { e with Topic := hermesTopicRoot ++ "/" ++ e.Topic }

/-- The outcome of `Client.Publish`: the token either carries an error or
does not. -/
inductive PublishOutcome where
  | ok
  | err (msg : String)
deriving Repr, DecidableEq

/-- The per-device ping topic
`fmt.Sprintf("%s/global/%s/ping", hadesPrefix, mac)`. -/
def pingTopic (mac : String) : String :=
  hadesTopicRoot ++ "/global/" ++ mac ++ "/ping"

/-- Go method `hermes.PingHades`: publishes an empty payload to the ping topic; on
a publish error logs a warning and returns false, and otherwise returns
false as well. `publish` maps each topic to the outcome of publishing to
it. -/
def PingHades (publish : String → PublishOutcome) (mac : String) : Bool :=
  match publish (pingTopic mac) with
  | PublishOutcome.err _ => false
  | PublishOutcome.ok => false

/-- Looking up the key just inserted yields the inserted value. -/
theorem mapFind_insert_self (k : String) (v : α) (m : List (String × α)) :
    mapFind k (mapInsert k v m) = some v := by
  induction m with
  | nil => simp [mapInsert, mapFind]
  | cons p rest ih =>
      obtain ⟨k1, v1⟩ := p
      by_cases h : k1 = k <;> simp [mapInsert, mapFind, h, ih]

/-- Insertion at a different key does not change a lookup. -/
theorem mapFind_insert_ne (k k1 : String) (v : α) (m : List (String × α))
    (h : k1 ≠ k) : mapFind k (mapInsert k1 v m) = mapFind k m := by
  induction m with
  | nil => simp [mapInsert, mapFind, h]
  | cons p rest ih =>
      obtain ⟨k2, v2⟩ := p
      by_cases h2 : k2 = k1
      · subst h2
        simp [mapInsert, mapFind, h]
      · simp only [mapInsert, if_neg h2, mapFind]
        by_cases h3 : k2 = k <;> simp [h3, ih]

/-- The first match found is the head of the filtered list. -/
theorem find_eq_filterHead (p : α → Bool) (l : List α) :
    l.find? p = (l.filter p).head? := by
  induction l with
  | nil => rfl
  | cons a l ih =>
      cases h : p a
      · rw [List.find?_cons_of_neg _ (by simp [h]), List.filter_cons_of_neg (by simp [h])]
        exact ih
      · rw [List.find?_cons_of_pos _ h, List.filter_cons_of_pos h]
        rfl

/-- C1: the spec says a `TimerReset` for a device with no existing ticker
is a silent no-op (no panic, no new registry entry). The code disagrees:
the `resetTimer` branch first writes `canSend[mac] = false` — creating a
registry entry — and then calls `Stop` on the nil ticker, which panics. -/
theorem reset_without_ticker_panics :
    mapFind "AA:BB:CC:DD:EE:FF" initState.sendTicker = none ∧
    (sendTimerStep initState (ControlMsg.reset "AA:BB:CC:DD:EE:FF")).panicked
      = some GoPanic.nilTickerStop ∧
    mapFind "AA:BB:CC:DD:EE:FF"
      (sendTimerStep initState (ControlMsg.reset "AA:BB:CC:DD:EE:FF")).state.canSend
      = some false ∧
    mapFind "AA:BB:CC:DD:EE:FF" initState.canSend = none := by
  refine ⟨rfl, by decide, by decide, rfl⟩

/-- C8: `PingHades` returns false on the publish-error path and on the
publish-success path alike; it can never report success. -/
theorem pingHades_always_false (publish : String → PublishOutcome) (mac : String) :
    PingHades publish mac = false ∧
    PingHades (fun _ => PublishOutcome.ok) mac = false ∧
    PingHades (fun _ => PublishOutcome.err "publish failed") mac = false := by
  refine ⟨?_, rfl, rfl⟩
  unfold PingHades
  cases publish (pingTopic mac) <;> rfl

/-- C9: `GetHandlers` is not idempotent — each call rewrites the stored
topics in place with a fresh `hermes/` segment, so a second call yields
`hermes/hermes/...` topics, different from the result of a single call. -/
theorem getHandlers_not_idempotent :
    (∀ hs : List TopicHandler,
        GetHandlers (GetHandlers hs) =
          hs.map fun e =>
            { e with Topic :=
                hermesTopicRoot ++ "/" ++ (hermesTopicRoot ++ "/" ++ e.Topic) }) ∧
    GetHandlers (GetHandlers initHandlers) ≠ GetHandlers initHandlers ∧
    (GetHandlers (GetHandlers initHandlers)).map TopicHandler.Topic =
      ["hermes/hermes/node/+/+/hades/model/receive",
       "hermes/hermes/node/+/+/hades/interval/receive"] := by
  refine ⟨?_, by decide, by decide⟩
  intro hs
  simp [GetHandlers]

/-- C10: `ResetCanSend` with the empty mac sends nothing on `resetTimer`
and consequently leaves the registry untouched; a non-empty mac produces
exactly one `resetTimer` send. -/
theorem resetCanSend_empty_noop :
    ResetCanSend "" = [] ∧
    (∀ s : HermesState,
        sendTimerRun s (ResetCanSend "") =
          { state := s, events := [], panicked := none }) ∧
    (∀ mac : String, mac ≠ "" → ResetCanSend mac = [ControlMsg.reset mac]) := by
  refine ⟨rfl, fun s => rfl, fun mac h => ?_⟩
  simp [ResetCanSend, h]

/-- Witness for C10 at the mac `"AA:BB:CC:DD:EE:FF"` and at the empty
string. -/
theorem resetCanSend_empty_noop_witness :
    ResetCanSend "AA:BB:CC:DD:EE:FF" = [ControlMsg.reset "AA:BB:CC:DD:EE:FF"] ∧
    sendTimerRun initState (ResetCanSend "") =
      { state := initState, events := [], panicked := none } :=
  ⟨resetCanSend_empty_noop.2.2 "AA:BB:CC:DD:EE:FF" (by decide),
   resetCanSend_empty_noop.2.1 initState⟩

/-- C2, counterexample: on a topic with no well-formed device id
(`parseTopicMac` gives `""`), `HandleReceiveModel` does not discard the
message — it still writes a model file, clears `initialModel`, and sends
a `Timer` on `setTimer`. -/
theorem handleReceiveModel_malformed_counter :
    parseTopicMac "foo/bar" = "" ∧
    initState.initialModel = true ∧
    (HandleReceiveModel initState ⟨"foo/bar", [1, 2, 3]⟩).state.initialModel = false ∧
    (HandleReceiveModel initState ⟨"foo/bar", [1, 2, 3]⟩).sent ≠ [] ∧
    (HandleReceiveModel initState ⟨"foo/bar", [1, 2, 3]⟩).files ≠ [] := by
  refine ⟨by decide, rfl, rfl, by decide, by decide⟩

/-- C2, amended: when extraction fails, `HandleReceiveModel` processes the
message anyway — it writes the payload to the model file named from the
empty identifier, sets `initialModel` to false, and sends
`Timer{10s, TimerSendInterval, ""}` to the timer owner. -/
theorem handleReceiveModel_malformed (s : HermesState) (msg : ModelMessage)
    (h : parseTopicMac msg.topic = "") :
    HandleReceiveModel s msg =
      { state := { s with initialModel := false }
        sent := [⟨10 * second, TimerSendInterval, ""⟩]
        files := [(modelFileName "", msg.payload)] } := by
  simp [HandleReceiveModel, h]

/-- Witness for the amended C2 at the topic `"foo/bar"`. -/
theorem handleReceiveModel_malformed_witness :
    HandleReceiveModel initState ⟨"foo/bar", [1, 2, 3]⟩ =
      { state := { initState with initialModel := false }
        sent := [⟨10 * second, TimerSendInterval, ""⟩]
        files := [(modelFileName "", [1, 2, 3])] } :=
  handleReceiveModel_malformed initState ⟨"foo/bar", [1, 2, 3]⟩ (by decide)

/-- C4: when the effective payload carries `SendInterval = 0`, or the
topic yields an empty device id, `HandleReceiveInterval` discards the
message: nothing is sent on `setTimer`, no file is written, and the whole
state — in particular the send interval, ticker and gate of every device —
is returned unchanged. -/
theorem handleReceiveInterval_invalid (s : HermesState) (msg : IntervalMessage)
    (h : (msg.payload.getD { MAC := "", SendInterval := 0 }).SendInterval = 0 ∨
         parseTopicMac msg.topic = "") :
    HandleReceiveInterval s msg = { state := s, sent := [], files := [] } := by
  unfold HandleReceiveInterval
  rcases h with h | h <;> simp [h]

/-- Witness for C4: a zero `send_interval` for a well-formed topic is
discarded. -/
theorem handleReceiveInterval_invalid_witness :
    HandleReceiveInterval initState
      ⟨"hermes/node/AA:BB:CC:DD:EE:FF/hades/interval/receive",
       some { MAC := "AA:BB:CC:DD:EE:FF", SendInterval := 0 }⟩ =
      { state := initState, sent := [], files := [] } :=
  handleReceiveInterval_invalid initState
    ⟨"hermes/node/AA:BB:CC:DD:EE:FF/hades/interval/receive",
     some { MAC := "AA:BB:CC:DD:EE:FF", SendInterval := 0 }⟩
    (Or.inl (by decide))

/-- C5: on any model message whose topic holds a well-formed device id,
`HandleReceiveModel` sets `initialModel` to false — whatever interval
state the device had before — and sends exactly one
`Timer{time.Second * 10, TimerSendInterval, deviceId}` to the timer
owner. -/
theorem handleReceiveModel_wellformed (s : HermesState) (msg : ModelMessage)
    (_h : parseTopicMac msg.topic ≠ "") :
    (HandleReceiveModel s msg).state.initialModel = false ∧
    (HandleReceiveModel s msg).sent =
      [⟨10 * second, TimerSendInterval, parseTopicMac msg.topic⟩] ∧
    (HandleReceiveModel s msg).state.currentSendInterval = s.currentSendInterval ∧
    (HandleReceiveModel s msg).state.sendTicker = s.sendTicker := by
  refine ⟨rfl, rfl, rfl, rfl⟩

/-- Witness for C5 at a model-delivery topic carrying a MAC segment. -/
theorem handleReceiveModel_wellformed_witness :
    (HandleReceiveModel initState
        ⟨"hermes/global/AA:BB:CC:DD:EE:FF/model/receive", [7]⟩).state.initialModel
      = false ∧
    (HandleReceiveModel initState
        ⟨"hermes/global/AA:BB:CC:DD:EE:FF/model/receive", [7]⟩).sent =
      [⟨10 * second, TimerSendInterval,
        parseTopicMac "hermes/global/AA:BB:CC:DD:EE:FF/model/receive"⟩] := by
  have h := handleReceiveModel_wellformed initState
    ⟨"hermes/global/AA:BB:CC:DD:EE:FF/model/receive", [7]⟩ (by decide)
  exact ⟨h.1, h.2.1⟩

/-- C3, counterexample: the claim quantifies over every duration, but for
`d = 0` the `setTimer` branch records the interval and then panics inside
`time.NewTicker` — no fresh ticker is installed and the gate is never
written. -/
theorem timerSet_zero_duration_counter :
    (sendTimerStep initState
        (ControlMsg.set ⟨0, TimerSendInterval, "AA:BB:CC:DD:EE:FF"⟩)).panicked
      = some GoPanic.nonPositiveInterval ∧
    mapFind "AA:BB:CC:DD:EE:FF"
      (sendTimerStep initState
        (ControlMsg.set ⟨0, TimerSendInterval, "AA:BB:CC:DD:EE:FF"⟩)).state.sendTicker
      = none ∧
    mapFind "AA:BB:CC:DD:EE:FF"
      (sendTimerStep initState
        (ControlMsg.set ⟨0, TimerSendInterval, "AA:BB:CC:DD:EE:FF"⟩)).state.canSend
      = none := by
  refine ⟨by decide, by decide, by decide⟩

/-- C3, amended (restricted to positive durations): processing
`Timer{d, TimerSendInterval, id}` with `0 < d` stops an existing ticker
for `id` before the new one is created (the life-cycle events show the
stop strictly first), records `currentSendInterval[id] = d`, installs a
fresh ticker of period `d` with no pending tick, sets
`canSend[id] = false`, touches no other device, and does not panic. -/
theorem timerSet_pos_duration (s : HermesState) (id : String) (d : Int)
    (hd : 0 < d) :
    (sendTimerStep s (ControlMsg.set ⟨d, TimerSendInterval, id⟩)).panicked = none ∧
    mapFind id (sendTimerStep s
        (ControlMsg.set ⟨d, TimerSendInterval, id⟩)).state.currentSendInterval
      = some d ∧
    mapFind id (sendTimerStep s
        (ControlMsg.set ⟨d, TimerSendInterval, id⟩)).state.sendTicker
      = some ⟨d, false⟩ ∧
    mapFind id (sendTimerStep s
        (ControlMsg.set ⟨d, TimerSendInterval, id⟩)).state.canSend
      = some false ∧
    (sendTimerStep s (ControlMsg.set ⟨d, TimerSendInterval, id⟩)).events =
      (match mapFind id s.sendTicker with
       | some _ => [TickerEvent.stopped id, TickerEvent.created id d]
       | none => [TickerEvent.created id d]) ∧
    (∀ k, k ≠ id →
      mapFind k (sendTimerStep s
          (ControlMsg.set ⟨d, TimerSendInterval, id⟩)).state.currentSendInterval
        = mapFind k s.currentSendInterval ∧
      mapFind k (sendTimerStep s
          (ControlMsg.set ⟨d, TimerSendInterval, id⟩)).state.sendTicker
        = mapFind k s.sendTicker ∧
      mapFind k (sendTimerStep s
          (ControlMsg.set ⟨d, TimerSendInterval, id⟩)).state.canSend
        = mapFind k s.canSend) ∧
    (sendTimerStep s
        (ControlMsg.set ⟨d, TimerSendInterval, id⟩)).state.initialModel
      = s.initialModel := by
  have hle : ¬ d ≤ 0 := not_le.mpr hd
  refine ⟨?_, ?_, ?_, ?_, ?_, ?_, ?_⟩
  · cases h : mapFind id s.sendTicker <;>
      simp [sendTimerStep, hle, h]
  · cases h : mapFind id s.sendTicker <;>
      simp [sendTimerStep, hle, h, mapFind_insert_self]
  · cases h : mapFind id s.sendTicker <;>
      simp [sendTimerStep, hle, h, mapFind_insert_self]
  · cases h : mapFind id s.sendTicker <;>
      simp [sendTimerStep, hle, h, mapFind_insert_self]
  · cases h : mapFind id s.sendTicker <;>
      simp [sendTimerStep, hle, h]
  · intro k hk
    refine ⟨?_, ?_, ?_⟩ <;>
    · cases h : mapFind id s.sendTicker <;>
        simp [sendTimerStep, hle, h, mapFind_insert_ne k id _ _ (fun e => hk e.symm)]
  · cases h : mapFind id s.sendTicker <;>
      simp [sendTimerStep, hle, h]

/-- Witness for the amended C3 at duration `time.Second` on the empty
registry. -/
theorem timerSet_pos_duration_witness :
    (sendTimerStep initState
        (ControlMsg.set ⟨second, TimerSendInterval, "AA:BB:CC:DD:EE:FF"⟩)).panicked
      = none ∧
    mapFind "AA:BB:CC:DD:EE:FF"
      (sendTimerStep initState
        (ControlMsg.set ⟨second, TimerSendInterval, "AA:BB:CC:DD:EE:FF"⟩)).state.sendTicker
      = some ⟨second, false⟩ ∧
    mapFind "AA:BB:CC:DD:EE:FF"
      (sendTimerStep initState
        (ControlMsg.set ⟨second, TimerSendInterval, "AA:BB:CC:DD:EE:FF"⟩)).state.canSend
      = some false := by
  have h := timerSet_pos_duration initState "AA:BB:CC:DD:EE:FF" second (by decide)
  exact ⟨h.1, h.2.2.1, h.2.2.2.1⟩

/-- A single `sendTimer` step that is not a `setTimer` message for `id`
never creates a ticker or an interval entry for `id`. -/
theorem step_preserves_absent (s : HermesState) (m : ControlMsg) (id : String)
    (hm : ∀ t, m = ControlMsg.set t → t.mac ≠ id)
    (h1 : mapFind id s.sendTicker = none)
    (h2 : mapFind id s.currentSendInterval = none) :
    mapFind id (sendTimerStep s m).state.sendTicker = none ∧
    mapFind id (sendTimerStep s m).state.currentSendInterval = none := by
  cases m with
  | set t =>
      have hne : t.mac ≠ id := hm t rfl
      by_cases ht : t.timerType = TimerSendInterval
      · by_cases hd : t.duration ≤ 0 <;>
        · cases h : mapFind t.mac s.sendTicker <;>
            simp [sendTimerStep, ht, hd, h, mapFind_insert_ne id t.mac _ _ hne,
              h1, h2]
      · simp [sendTimerStep, ht, h1, h2]
  | reset mac =>
      by_cases hmac : mac = id
      · subst hmac
        simp [sendTimerStep, h1, h2]
      · cases h : mapFind mac s.sendTicker
        · simp [sendTimerStep, h, h1, h2]
        · by_cases hd : (mapFind mac s.currentSendInterval).getD 0 ≤ 0 <;>
            simp [sendTimerStep, h, hd, h1, h2, mapFind_insert_ne id mac _ _ hmac]

/-- Running `sendTimer` over a queue holding no `setTimer` message for
`id` never creates a ticker or an interval entry for `id`. -/
theorem run_preserves_absent (ms : List ControlMsg) :
    ∀ s : HermesState, ∀ id : String,
    (∀ t, ControlMsg.set t ∈ ms → t.mac ≠ id) →
    mapFind id s.sendTicker = none →
    mapFind id s.currentSendInterval = none →
    mapFind id (sendTimerRun s ms).state.sendTicker = none ∧
    mapFind id (sendTimerRun s ms).state.currentSendInterval = none := by
  induction ms with
  | nil => intro s id _ h1 h2; exact ⟨h1, h2⟩
  | cons m ms ih =>
      intro s id hm h1 h2
      have hstep := step_preserves_absent s m id
        (fun t he => hm t (by rw [he]; exact List.mem_cons_self _ _)) h1 h2
      unfold sendTimerRun
      cases hp : (sendTimerStep s m).panicked
      · simpa [hp] using ih (sendTimerStep s m).state id
          (fun t ht => hm t (List.mem_cons_of_mem _ ht)) hstep.1 hstep.2
      · simpa [hp] using hstep

/-- C6: for a device that is never the target of a `setTimer` message
in the processed queue — in particular when the registry is empty —
`GetCanSend` returns true (absence of rate-limiting state never blocks
sending) and `GetCurrentSendInterval` returns the 1-second default. -/
theorem canSend_default_open (ms : List ControlMsg) (id : String)
    (h : ∀ t, ControlMsg.set t ∈ ms → t.mac ≠ id) :
    (GetCanSend (sendTimerRun initState ms).state id).1 = true ∧
    GetCurrentSendInterval (sendTimerRun initState ms).state id = second := by
  obtain ⟨h1, h2⟩ := run_preserves_absent ms initState id h rfl rfl
  constructor
  · by_cases hc : (sendTimerRun initState ms).state.canSend.isEmpty <;>
      simp [GetCanSend, hc, h1]
  · simp [GetCurrentSendInterval, h2]

/-- Witness for C6: after arming a timer for one device, a different
device still gets the default-open gate and the 1-second interval. -/
theorem canSend_default_open_witness :
    (GetCanSend (sendTimerRun initState
        [ControlMsg.set ⟨second, TimerSendInterval, "BB:BB:BB:BB:BB:BB"⟩]).state
        "AA:BB:CC:DD:EE:FF").1 = true ∧
    GetCurrentSendInterval (sendTimerRun initState
        [ControlMsg.set ⟨second, TimerSendInterval, "BB:BB:BB:BB:BB:BB"⟩]).state
        "AA:BB:CC:DD:EE:FF" = second := by
  refine canSend_default_open _ _ ?_
  intro t ht
  rw [List.mem_singleton] at ht
  injection ht with he
  subst he
  decide

/-- C7: `parseTopicMac` returns the empty string when no slash-separated
segment of the topic has the MAC-address shape, and returns the unique
MAC-shaped segment whenever exactly one segment matches, wherever it sits
in the topic; in particular a five-group segment and the empty topic both
give the empty string. -/
theorem parseTopicMac_correct (topic : String) :
    ((∀ seg ∈ topicSegments topic, isMacShape seg = false) →
        parseTopicMac topic = "") ∧
    (∀ m, (topicSegments topic).filter isMacShape = [m] →
        parseTopicMac topic = String.mk m) ∧
    parseTopicMac "hermes/AA:BB:CC:DD:EE/global/send" = "" ∧
    parseTopicMac "" = "" := by
  refine ⟨?_, ?_, by decide, rfl⟩
  · intro h
    unfold parseTopicMac
    have hn : (topicSegments topic).find? isMacShape = none :=
      List.find?_eq_none.mpr (fun x hx => by simp [h x hx])
    rw [hn]
  · intro m hm
    unfold parseTopicMac
    rw [find_eq_filterHead, hm]
    rfl

/-- Witness for C7 on the two positive test vectors: the MAC segment is
extracted from both a mid-topic position and the second segment. -/
theorem parseTopicMac_correct_witness :
    parseTopicMac "hermes/global/AA:BB:CC:DD:EE:FF/model/receive"
      = "AA:BB:CC:DD:EE:FF" ∧
    parseTopicMac "hermes/AA:BB:CC:DD:EE:FF/global/receive/+"
      = "AA:BB:CC:DD:EE:FF" := by
  constructor
  · exact (parseTopicMac_correct "hermes/global/AA:BB:CC:DD:EE:FF/model/receive").2.1
      (String.data "AA:BB:CC:DD:EE:FF") (by decide)
  · exact (parseTopicMac_correct "hermes/AA:BB:CC:DD:EE:FF/global/receive/+").2.1
      (String.data "AA:BB:CC:DD:EE:FF") (by decide)

end Hermes
